import Mathlib

/-!
Verification of the sidecar-generation core of jacketstaggui.

Strings of the Python source are modelled as lists of characters.
The functions below are shallow embeddings, translated one-for-one from
src/taggui/utils/xmp_sidecar_generator.py and
src/taggui/utils/sidecar_generation_thread.py.
-/

namespace TagGui

/-- A Python string, modelled as a list of characters. -/
abbrev Str := List Char

/-- Whitespace test used by Python's str.strip (ASCII whitespace). -/
def isSpaceChar (c : Char) : Bool := c.isWhitespace

/-- One character of Python's str.lower (ASCII range, which is all the
source's literals use). -/
def lowerChar (c : Char) : Char :=
  if 65 ≤ c.toNat ∧ c.toNat ≤ 90 then Char.ofNat (c.toNat + 32) else c

/-- Python str.lower, character by character. -/
def pyLower (s : Str) : Str := s.map lowerChar

/-- Python str.strip: drop leading and trailing whitespace. -/
def pyStrip (s : Str) : Str :=
  ((s.dropWhile isSpaceChar).reverse.dropWhile isSpaceChar).reverse

/-- Python str.startswith for the one-character pattern the source uses. -/
def startsHash (s : Str) : Bool :=
  match s with
  | [] => false
  | c :: _ => c = '#'

/-- The built-in default blacklist of XmpSidecarGenerator._load_blacklist
(xmp_sidecar_generator.py lines 29-37). -/
def default_blacklist : List Str :=
  [("blurry".data), ("low quality".data), ("bad quality".data),
   ("worst quality".data), ("jpeg artifacts".data),
   ("watermark".data), ("text".data), ("signature".data),
   ("username".data), ("logo".data),
   ("image".data), ("picture".data), ("photo".data), ("art".data),
   ("artwork".data), ("drawing".data), ("painting".data),
   ("digital art".data), ("digital painting".data),
   ("illustration".data), ("sketch".data),
   ("ai generated".data), ("artificial intelligence".data),
   ("machine learning".data),
   ("deep learning".data), ("neural network".data), ("gan".data),
   ("stable diffusion".data),
   ("midjourney".data), ("dalle".data), ("openai".data),
   ("automatic1111".data)]

/-- Normalisation of one custom blacklist tag: kept only when nonblank
after stripping, stored stripped and lowercased (line 44). -/
def normCustomTag (t : Str) : Option Str :=
  if pyStrip t = [] then none else some (pyLower (pyStrip t))

/-- Normalisation of one blacklist-file line: kept when nonblank after
stripping and not starting with the comment character (line 53). -/
def normFileLine (l : Str) : Option Str :=
  if pyStrip l ≠ [] ∧ ¬ startsHash l then some (pyLower (pyStrip l)) else none

/-- XmpSidecarGenerator._load_blacklist (lines 24-62).
`file_lines` is the readable content of the blacklist file when the path
is given and the file exists and is readable; `none` models a missing or
unreadable file (the fail-open branches of lines 55-60). -/
def load_blacklist (blacklist_file : Option Str)
    (file_lines : Option (List Str))
    (custom_blacklist_tags : Option (List Str)) : List Str :=
  if blacklist_file = some ("DISABLED".data) then []
  else
    let bl1 := default_blacklist
    let bl2 :=
      match custom_blacklist_tags with
      | some cs => if cs = [] then bl1 else bl1 ++ cs.filterMap normCustomTag
      | none => bl1
    match blacklist_file, file_lines with
    | some _, some lines => bl2 ++ lines.filterMap normFileLine
    | _, _ => bl2

/-- The keep test of XmpSidecarGenerator.filter_tags (lines 150-152):
the strip of the lowercase of the tag is nonempty and not blacklisted. -/
def keepTag (blacklist : List Str) (tag : Str) : Bool :=
  decide (pyStrip (pyLower tag) ≠ [] ∧ pyStrip (pyLower tag) ∉ blacklist)

/-- XmpSidecarGenerator.filter_tags (lines 147-157). -/
def filter_tags (blacklist : List Str) (tags : List Str) : List Str :=
  tags.filter (keepTag blacklist)

/-- Content standing at the true sidecar destination path. `original` is a
pre-existing sidecar; `written b` is output of the external tool, complete
when the tool exited successfully (`b = true`), partial otherwise. -/
inductive DestContent
  | original
  | written (complete : Bool)
deriving DecidableEq, Repr

/-- The environment of one generate_sidecar call: outcomes of the
filesystem and external-tool operations it performs. `delete_ok i` is the
success of the i-th unlink attempt on the existing sidecar; `tool_ok` the
exit status of the exiftool write invocation; `out_on_fail` whether a
failing tool still leaves an output file at the path given to `-o`;
`move_ok` the success of the shutil.move of the temporary sidecar. -/
structure Env where
  delete_ok : Nat → Bool
  tool_ok : Bool
  out_on_fail : Bool
  move_ok : Bool

/-- Observable outcome of one generate_sidecar call: its return value,
whether the external tool's write invocation ran, how many delete
attempts were made on the existing sidecar, and what stands at the true
destination path afterwards. -/
structure GenResult where
  success : Bool
  tool_invoked : Bool
  delete_attempts : Nat
  dest : Option DestContent
deriving DecidableEq, Repr

/-- The delete-retry loop of generate_sidecar (lines 344-356): up to three
unlink attempts, stopping at the first success. Returns the number of
attempts made and whether the file was deleted. -/
def tryDelete (env : Env) : Nat × Bool :=
  if env.delete_ok 0 then (1, true)
  else if env.delete_ok 1 then (2, true)
  else if env.delete_ok 2 then (3, true)
  else (3, false)

/-- The write phase of generate_sidecar after the overwrite-delete step
(lines 364-535). `dest1` is the destination state entering this phase,
`att` the number of delete attempts already made. In the xmp branch the
tool is invoked with `-o` pointing at the temporary path when `uni`, and
directly at the true destination otherwise; the finally block
(lines 497-514) then moves an existing temporary output over the
destination, unlinking any file standing there first, whether or not the
tool succeeded. Any other format is rejected (lines 533-535). -/
def genAfterDelete (isXmp : Bool) (dest1 : Option DestContent) (att : Nat)
    (env : Env) (uni : Bool) (dest0 : Option DestContent) : GenResult :=
  if isXmp then
    let outExists := env.tool_ok || env.out_on_fail
    let dest2 :=
      if uni then
        if outExists then
          (if env.move_ok then some (DestContent.written env.tool_ok) else none)
        else dest1
      else
        if outExists then some (DestContent.written env.tool_ok) else dest1
    ⟨env.tool_ok, true, att, dest2⟩
  else ⟨false, false, att, dest0⟩

/-- XmpSidecarGenerator.generate_sidecar (lines 320-535), as a function of
its inputs, the initial destination state `dest0`, whether the
Unicode-safe temporary output path is in use (`uni`, true when the image
was copied or the sidecar name needs the workaround, lines 383-389), and
the environment. read_existing_metadata (line 366) is best-effort
enrichment with no effect on the modelled state. -/
def generate_sidecar (blacklist : List Str) (tags : List Str)
    (format_type : Str) (overwrite : Bool) (dest0 : Option DestContent)
    (uni : Bool) (env : Env) : GenResult :=
  if tags = [] then ⟨false, false, 0, dest0⟩
  else if filter_tags blacklist tags = [] then ⟨false, false, 0, dest0⟩
  else
    let isXmp : Bool := pyLower format_type == ("xmp".data)
    if isXmp && overwrite && dest0.isSome then
      if (tryDelete env).2 then
        genAfterDelete isXmp none (tryDelete env).1 env uni dest0
      else
        ⟨false, false, (tryDelete env).1, dest0⟩
    else
      genAfterDelete isXmp dest0 0 env uni dest0

/-! ## Batch thread (sidecar_generation_thread.py) -/

/-- An event emitted by SidecarGenerationThread.run towards the UI:
a batched log event carrying some number of accumulated lines, or a
progress event carrying the completion count. -/
inductive Event
  | logBatch (lines : Nat)
  | progress (completed : Nat)
deriving DecidableEq, Repr

/-- The mutable state of the completion-draining loop of
SidecarGenerationThread.run: the processed and error counters, the number
of completions consumed, the number of pending log lines, and the events
emitted so far. -/
structure RunState where
  processed : Nat
  error : Nat
  completed : Nat
  log_pending : Nat
  events : List Event
deriving DecidableEq, Repr

/-- Consuming one completion in SidecarGenerationThread.run
(lines 59-79): bump the matching counter, append one log line, and flush
log plus progress when the completion count is a multiple of 50 or equals
the batch size `n`. -/
def stepRun (n : Nat) (st : RunState) (ok : Bool) : RunState :=
  let completed := st.completed + 1
  let processed := if ok then st.processed + 1 else st.processed
  let error := if ok then st.error else st.error + 1
  let pending := st.log_pending + 1
  if completed % 50 = 0 ∨ completed = n then
    ⟨processed, error, completed, 0,
      st.events ++ [Event.logBatch pending, Event.progress completed]⟩
  else
    ⟨processed, error, completed, pending, st.events⟩

/-- The completion loop of SidecarGenerationThread.run (lines 53-79) over
the completion-ordered outcomes. The write-once cancellation flag is
modelled by its observation point `p`: the check at the top of the loop
(line 54) sees the flag set exactly when `p` or more completions have
already been consumed, and then breaks. -/
def runLoop (n p : Nat) : List Bool → RunState → RunState
  | [], st => st
  | ok :: rest, st =>
      if p ≤ st.completed then st
      else runLoop n p rest (stepRun n st ok)

/-- The completion loop with the cancellation check erased: the behaviour
of runLoop when the flag is never observed set during the loop. -/
def runLoopNC (n : Nat) : List Bool → RunState → RunState
  | [], st => st
  | ok :: rest, st => runLoopNC n rest (stepRun n st ok)

/-- The trailing flush of SidecarGenerationThread.run (lines 84-86): any
log lines still pending after the loop go out as one final log event. -/
def flushRest (st : RunState) : RunState :=
  if st.log_pending ≠ 0 then
    ⟨st.processed, st.error, st.completed, 0,
      st.events ++ [Event.logBatch st.log_pending]⟩
  else st

/-- SidecarGenerationThread.run (lines 28-88) over the list of per-image
outcomes in completion order, with cancellation observed once `p`
completions have been consumed (`p` greater than the batch size models a
run that is never cancelled). -/
def runThread (outcomes : List Bool) (p : Nat) : RunState :=
  flushRest (runLoop outcomes.length p outcomes ⟨0, 0, 0, 0, []⟩)

/-! ## Face-region parsing (read_existing_metadata, lines 235-304) -/

/-- One face record being accumulated by read_existing_metadata:
the fields of face_regions_by_name[name]. -/
structure FaceRec where
  rectangle : Option Str := none
  area_x : Option Str := none
  area_y : Option Str := none
  area_w : Option Str := none
  area_h : Option Str := none
  applied_w : Option Str := none
  applied_h : Option Str := none
  applied_unit : Option Str := none
deriving DecidableEq, Repr

/-- The region-related content of one line of exiftool output, after the
elif dispatch of lines 236-301 and its regex value extraction. -/
inductive RegionLine
  | name (v : Str)
  | rectangle (v : Str)
  | areaX (v : Str)
  | areaY (v : Str)
  | areaW (v : Str)
  | areaH (v : Str)
  | appliedW (v : Str)
  | appliedH (v : Str)
  | appliedUnit (v : Str)
deriving DecidableEq, Repr

/-- The body of the field-attaching loops at lines 250-252 (and the seven
analogous blocks): iterate over the keys of face_regions_by_name in
insertion order, set the field on the first entry, then break. -/
def setFirst (regs : List (Str × FaceRec)) (f : FaceRec → FaceRec) :
    List (Str × FaceRec) :=
  match regs with
  | [] => []
  | (n, r) :: rest => (n, f r) :: rest

/-- Processing of one region line against the insertion-ordered
face_regions_by_name mapping (lines 236-301): a name line inserts a fresh
record for an unseen nonblank name; every other region line is written
onto the first entry of the mapping. -/
def stepRegion (regs : List (Str × FaceRec)) (l : RegionLine) :
    List (Str × FaceRec) :=
  match l with
  | RegionLine.name v =>
      let nm := pyStrip v
      if nm = [] then regs
      else if (regs.map Prod.fst).contains nm then regs
      else regs ++ [(nm, {})]
  | RegionLine.rectangle v => setFirst regs (fun r => { r with rectangle := some (pyStrip v) })
  | RegionLine.areaX v => setFirst regs (fun r => { r with area_x := some (pyStrip v) })
  | RegionLine.areaY v => setFirst regs (fun r => { r with area_y := some (pyStrip v) })
  | RegionLine.areaW v => setFirst regs (fun r => { r with area_w := some (pyStrip v) })
  | RegionLine.areaH v => setFirst regs (fun r => { r with area_h := some (pyStrip v) })
  | RegionLine.appliedW v => setFirst regs (fun r => { r with applied_w := some (pyStrip v) })
  | RegionLine.appliedH v => setFirst regs (fun r => { r with applied_h := some (pyStrip v) })
  | RegionLine.appliedUnit v => setFirst regs (fun r => { r with applied_unit := some (pyStrip v) })

/-- The face_regions accumulation of read_existing_metadata over a whole
exiftool output stream (region lines in stream order), lines 187-304. -/
def parseRegions (ls : List RegionLine) : List (Str × FaceRec) :=
  ls.foldl stepRegion []

/-! ## Character and string lemmas -/

theorem toNat_ofNat_valid (n : Nat) (h : n < 0xd800) :
    (Char.ofNat n).toNat = n := by
  have hv : n.isValidChar := Or.inl h
  simp [Char.ofNat, hv, Char.ofNatAux, Char.toNat, UInt32.toNat]

theorem not_ws_of_toNat (d : Char) (h1 : d.toNat ≠ 32) (h2 : d.toNat ≠ 9)
    (h3 : d.toNat ≠ 13) (h4 : d.toNat ≠ 10) : isSpaceChar d = false := by
  have e1 : d ≠ ' ' := fun hh => h1 (by subst hh; rfl)
  have e2 : d ≠ '\t' := fun hh => h2 (by subst hh; rfl)
  have e3 : d ≠ '\r' := fun hh => h3 (by subst hh; rfl)
  have e4 : d ≠ '\n' := fun hh => h4 (by subst hh; rfl)
  simp [isSpaceChar, Char.isWhitespace, e1, e2, e3, e4]

theorem isSpaceChar_lowerChar (c : Char) :
    isSpaceChar (lowerChar c) = isSpaceChar c := by
  unfold lowerChar
  split
  case isTrue h =>
    have ht : (Char.ofNat (c.toNat + 32)).toNat = c.toNat + 32 :=
      toNat_ofNat_valid _ (by omega)
    rw [not_ws_of_toNat (Char.ofNat (c.toNat + 32)) (by omega) (by omega)
      (by omega) (by omega)]
    rw [not_ws_of_toNat c (by omega) (by omega) (by omega) (by omega)]
  case isFalse h => rfl

theorem all_dropWhile_iff (p : Char → Bool) (s : List Char) :
    (∀ c ∈ s.dropWhile p, p c) ↔ (∀ c ∈ s, p c) := by
  constructor
  · intro h c hc
    rw [← List.takeWhile_append_dropWhile p s] at hc
    rcases List.mem_append.mp hc with h1 | h2
    · exact List.mem_takeWhile_imp h1
    · exact h c h2
  · intro h c hc
    exact h c ((List.dropWhile_sublist p).mem hc)

theorem pyStrip_eq_nil_iff (s : Str) :
    pyStrip s = [] ↔ ∀ c ∈ s, isSpaceChar c := by
  unfold pyStrip
  rw [List.reverse_eq_nil_iff, List.dropWhile_eq_nil_iff]
  constructor
  · intro h
    rw [← all_dropWhile_iff isSpaceChar s]
    intro c hc
    exact h c (List.mem_reverse.mpr hc)
  · intro h c hc
    exact (all_dropWhile_iff isSpaceChar s).mpr h c (List.mem_reverse.mp hc)

theorem pyStrip_pyLower_nil (s : Str) :
    pyStrip (pyLower s) = [] ↔ pyStrip s = [] := by
  rw [pyStrip_eq_nil_iff, pyStrip_eq_nil_iff]
  unfold pyLower
  constructor
  · intro h c hc
    have hm := h (lowerChar c) (List.mem_map_of_mem lowerChar hc)
    rwa [isSpaceChar_lowerChar] at hm
  · intro h c hc
    rcases List.mem_map.mp hc with ⟨d, hd, rfl⟩
    rw [isSpaceChar_lowerChar]
    exact h d hd

/-! ## Claims about filter_tags and the blacklist -/

/-- Claim C7: for every input tag list, filter_tags returns a subsequence
of the input (hence preserving relative order and original casing) that
contains no element whose lowercased, trimmed form is a member of the
active blacklist. -/
theorem c7_filter_tags_subsequence (blacklist tags : List Str) :
    (filter_tags blacklist tags).Sublist tags ∧
      ∀ t ∈ filter_tags blacklist tags, pyStrip (pyLower t) ∉ blacklist := by
  refine ⟨List.filter_sublist tags, ?_⟩
  intro t ht
  have h := (List.mem_filter.mp ht).2
  simp only [keepTag, decide_eq_true_eq] at h
  exact h.2

/-- Claim C10: filter_tags also removes every tag that is empty or
whitespace-only, even for the empty blacklist; the output never contains
a whitespace-only element. -/
theorem c10_filter_tags_whitespace (blacklist tags : List Str) (t : Str) :
    (t ∈ filter_tags blacklist tags → pyStrip t ≠ []) ∧
      (pyStrip t = [] → t ∉ filter_tags blacklist tags) := by
  have key : t ∈ filter_tags blacklist tags → pyStrip t ≠ [] := by
    intro ht hnil
    have h := (List.mem_filter.mp ht).2
    simp only [keepTag, decide_eq_true_eq] at h
    exact h.1 ((pyStrip_pyLower_nil t).mpr hnil)
  exact ⟨key, fun hnil ht => key ht hnil⟩

/-- Witness for C10 at a concrete input: the whitespace-only tag is
removed even though the blacklist is empty. -/
theorem c10_witness :
    (" ".data) ∉ filter_tags [] [(" ".data), ("cat".data)] :=
  (c10_filter_tags_whitespace [] [(" ".data), ("cat".data)] (" ".data)).2
    (by decide)

/-- Claim C9: the blacklist built by _load_blacklist is the union of the
built-in default set, the normalised custom tags and the normalised
non-comment non-blank file lines; the DISABLED sentinel always yields the
empty set. -/
theorem c9_load_blacklist_union (bf : Str) (fl : List Str)
    (custom : Option (List Str)) (x : Str)
    (h : bf ≠ ("DISABLED".data)) :
    (∀ fl2 c2, load_blacklist (some ("DISABLED".data)) fl2 c2 = []) ∧
    (x ∈ load_blacklist (some bf) (some fl) custom ↔
      x ∈ default_blacklist ∨
        x ∈ (custom.getD []).filterMap normCustomTag ∨
        x ∈ fl.filterMap normFileLine) := by
  constructor
  · intro fl2 c2
    simp [load_blacklist]
  · rcases custom with _ | cs
    · simp [load_blacklist, h, List.mem_append]
    · rcases cs with _ | ⟨c0, cs⟩
      · simp [load_blacklist, h, List.mem_append]
      · simp [load_blacklist, h, List.mem_append, or_assoc]

/-- Witness for C9 at a concrete input: a comment line stays out, a
custom tag and a file line are both in. -/
theorem c9_witness :
    ("foo".data) ∈ load_blacklist (some ("bl.txt".data))
      (some [("# note".data), (" Foo ".data)]) (some [(" Bar ".data)]) :=
  (c9_load_blacklist_union ("bl.txt".data) [("# note".data), (" Foo ".data)]
    (some [(" Bar ".data)]) ("foo".data) (by decide)).2.mpr
    (Or.inr (Or.inr (by decide)))

/-! ## Claim about face-region attachment -/

/-- Claim C2: after two RegionName lines (Alice, then Bob) a
RegionRectangle line is attached by the code to the FIRST face seen
(Alice), not to the most recently seen face (Bob) as the specification
and the code's own comment state. -/
theorem c2_region_attaches_to_first :
    parseRegions [RegionLine.name ("Alice".data),
        RegionLine.name ("Bob".data),
        RegionLine.rectangle ("R1".data)] =
      [(("Alice".data), { rectangle := some ("R1".data) }),
       (("Bob".data), {})] := by decide

/-! ## Lemmas on the batch thread -/

theorem stepRun_completed (n : Nat) (st : RunState) (ok : Bool) :
    (stepRun n st ok).completed = st.completed + 1 := by
  by_cases h : ((st.completed + 1) % 50 = 0 ∨ st.completed + 1 = n) <;>
    simp [stepRun, h]

theorem stepRun_processed (n : Nat) (st : RunState) (ok : Bool) :
    (stepRun n st ok).processed =
      if ok then st.processed + 1 else st.processed := by
  by_cases h : ((st.completed + 1) % 50 = 0 ∨ st.completed + 1 = n) <;>
    simp [stepRun, h]

theorem stepRun_error (n : Nat) (st : RunState) (ok : Bool) :
    (stepRun n st ok).error = if ok then st.error else st.error + 1 := by
  by_cases h : ((st.completed + 1) % 50 = 0 ∨ st.completed + 1 = n) <;>
    simp [stepRun, h]

theorem stepRun_events (n : Nat) (st : RunState) (ok : Bool) :
    (stepRun n st ok).events =
      if (st.completed + 1) % 50 = 0 ∨ st.completed + 1 = n then
        st.events ++ [Event.logBatch (st.log_pending + 1),
          Event.progress (st.completed + 1)]
      else st.events := by
  by_cases h : ((st.completed + 1) % 50 = 0 ∨ st.completed + 1 = n) <;>
    simp [stepRun, h]

theorem stepRun_pending (n : Nat) (st : RunState) (ok : Bool) :
    (stepRun n st ok).log_pending =
      if (st.completed + 1) % 50 = 0 ∨ st.completed + 1 = n then 0
      else st.log_pending + 1 := by
  by_cases h : ((st.completed + 1) % 50 = 0 ∨ st.completed + 1 = n) <;>
    simp [stepRun, h]

theorem flushRest_counters (st : RunState) :
    (flushRest st).processed = st.processed ∧
      (flushRest st).error = st.error ∧
      (flushRest st).completed = st.completed := by
  unfold flushRest
  split <;> simp

theorem runLoop_sum (n p : Nat) (l : List Bool) (st : RunState)
    (h : st.processed + st.error = st.completed) :
    (runLoop n p l st).processed + (runLoop n p l st).error
      = (runLoop n p l st).completed := by
  induction l generalizing st with
  | nil => simpa [runLoop] using h
  | cons ok rest ih =>
      simp only [runLoop]
      split
      · exact h
      · refine ih (stepRun n st ok) ?_
        rw [stepRun_processed, stepRun_error, stepRun_completed]
        cases ok <;> simp <;> omega

theorem runLoop_completed (n p : Nat) (l : List Bool) (st : RunState)
    (h : st.completed ≤ p) :
    (runLoop n p l st).completed = min (st.completed + l.length) p := by
  induction l generalizing st with
  | nil => simp [runLoop]; omega
  | cons ok rest ih =>
      simp only [runLoop]
      split
      · simp only [List.length_cons]
        omega
      · rw [ih (stepRun n st ok) (by rw [stepRun_completed]; omega)]
        rw [stepRun_completed]
        simp only [List.length_cons]
        omega

theorem runLoop_processed_false (n p : Nat) (l : List Bool) (st : RunState)
    (h : ∀ b ∈ l, b = false) :
    (runLoop n p l st).processed = st.processed := by
  induction l generalizing st with
  | nil => simp [runLoop]
  | cons ok rest ih =>
      simp only [runLoop]
      split
      · rfl
      · rw [ih (stepRun n st ok) (fun b hb => h b (List.mem_cons_of_mem ok hb))]
        rw [stepRun_processed, h ok (List.mem_cons_self ok rest)]
        simp

theorem runLoop_eq_nc (n p : Nat) (l : List Bool) (st : RunState)
    (h : st.completed + l.length ≤ n) (hp : n < p) :
    runLoop n p l st = runLoopNC n l st := by
  induction l generalizing st with
  | nil => simp [runLoop, runLoopNC]
  | cons ok rest ih =>
      simp only [List.length_cons] at h
      simp only [runLoop, runLoopNC]
      rw [if_neg (by omega : ¬ p ≤ st.completed)]
      exact ih (stepRun n st ok) (by rw [stepRun_completed]; omega)

theorem stepRun_obs (n : Nat) (st₁ st₂ : RunState) (ok₁ ok₂ : Bool)
    (hc : st₁.completed = st₂.completed)
    (hl : st₁.log_pending = st₂.log_pending)
    (he : st₁.events = st₂.events) :
    (stepRun n st₁ ok₁).completed = (stepRun n st₂ ok₂).completed ∧
      (stepRun n st₁ ok₁).log_pending = (stepRun n st₂ ok₂).log_pending ∧
      (stepRun n st₁ ok₁).events = (stepRun n st₂ ok₂).events := by
  rw [stepRun_completed, stepRun_completed, stepRun_pending, stepRun_pending,
    stepRun_events, stepRun_events, hc, hl, he]
  exact ⟨rfl, rfl, rfl⟩

theorem runLoopNC_obs (n : Nat) (l₁ : List Bool) :
    ∀ (l₂ : List Bool) (st₁ st₂ : RunState), l₁.length = l₂.length →
    st₁.completed = st₂.completed → st₁.log_pending = st₂.log_pending →
    st₁.events = st₂.events →
    (runLoopNC n l₁ st₁).completed = (runLoopNC n l₂ st₂).completed ∧
      (runLoopNC n l₁ st₁).log_pending = (runLoopNC n l₂ st₂).log_pending ∧
      (runLoopNC n l₁ st₁).events = (runLoopNC n l₂ st₂).events := by
  induction l₁ with
  | nil =>
      intro l₂ st₁ st₂ hlen hc hl he
      rcases l₂ with _ | ⟨b, l₂⟩
      · exact ⟨hc, hl, he⟩
      · simp at hlen
  | cons ok rest ih =>
      intro l₂ st₁ st₂ hlen hc hl he
      rcases l₂ with _ | ⟨b, l₂⟩
      · simp at hlen
      · simp only [List.length_cons] at hlen
        simp only [runLoopNC]
        obtain ⟨oc, ol, oe⟩ := stepRun_obs n st₁ st₂ ok b hc hl he
        exact ih l₂ (stepRun n st₁ ok) (stepRun n st₂ b)
          (by omega) oc ol oe

theorem runLoopNC_progress_mem (n : Nat) (l : List Bool) :
    ∀ (st : RunState) (c : Nat),
    Event.progress c ∈ (runLoopNC n l st).events ↔
      Event.progress c ∈ st.events ∨
        (st.completed < c ∧ c ≤ st.completed + l.length ∧
          (c % 50 = 0 ∨ c = n)) := by
  induction l with
  | nil =>
      intro st c
      simp only [runLoopNC, List.length_nil]
      constructor
      · exact fun h => Or.inl h
      · rintro (h | h)
        · exact h
        · omega
  | cons ok rest ih =>
      intro st c
      simp only [runLoopNC, List.length_cons]
      rw [ih]
      rw [stepRun_events, stepRun_completed]
      by_cases hcond : (st.completed + 1) % 50 = 0 ∨ st.completed + 1 = n
      · rw [if_pos hcond]
        simp only [List.mem_append, List.mem_cons, List.mem_singleton,
          List.not_mem_nil, or_false, Event.progress.injEq, reduceCtorEq,
          false_or]
        by_cases hA : Event.progress c ∈ st.events <;>
          (simp [hA]; all_goals omega)
      · rw [if_neg hcond]
        by_cases hA : Event.progress c ∈ st.events <;>
          (simp [hA]; all_goals omega)

theorem flushRest_zero (st : RunState) (h : st.log_pending = 0) :
    flushRest st = st := by
  unfold flushRest
  simp [h]

theorem flushRest_progress_mem (st : RunState) (c : Nat) :
    Event.progress c ∈ (flushRest st).events ↔
      Event.progress c ∈ st.events := by
  unfold flushRest
  split <;> simp

/-! ## Claims about generate_sidecar -/

theorem tryDelete_fst_le (env : Env) : (tryDelete env).1 ≤ 3 := by
  unfold tryDelete
  split
  · simp
  · split
    · simp
    · split <;> simp

/-- Claim C6: with overwrite true, format xmp and an existing sidecar,
the delete is retried up to 3 times; when all three attempts fail the
operation fails without invoking the external tool, leaving the
destination untouched. -/
theorem c6_delete_retry (blacklist tags : List Str) (ft : Str)
    (d : DestContent) (uni : Bool) (env : Env)
    (h1 : tags ≠ []) (h2 : filter_tags blacklist tags ≠ [])
    (h3 : pyLower ft = ("xmp".data))
    (h4 : env.delete_ok 0 = false) (h5 : env.delete_ok 1 = false)
    (h6 : env.delete_ok 2 = false) :
    generate_sidecar blacklist tags ft true (some d) uni env =
      ⟨false, false, 3, some d⟩ ∧
    ∀ bl2 tg2 ft2 ow2 d2 u2 e2,
      (generate_sidecar bl2 tg2 ft2 ow2 d2 u2 e2).delete_attempts ≤ 3 := by
  constructor
  · simp [generate_sidecar, h1, h2, h3, tryDelete, h4, h5, h6]
  · intro bl2 tg2 ft2 ow2 d2 u2 e2
    unfold generate_sidecar genAfterDelete
    split_ifs <;> simp [tryDelete_fst_le] <;>
      split_ifs <;> simp [tryDelete_fst_le]

/-- Witness for C6 at a concrete input. -/
theorem c6_witness :
    generate_sidecar [] [("cat".data)] ("xmp".data) true
        (some DestContent.original) false
        ⟨fun _ => false, true, false, true⟩ =
      ⟨false, false, 3, some DestContent.original⟩ :=
  (c6_delete_retry [] [("cat".data)] ("xmp".data) DestContent.original false
    ⟨fun _ => false, true, false, true⟩
    (by decide) (by decide) (by decide) rfl rfl rfl).1

/-- Counterexample to claim C8: the format string XMP differs from xmp,
yet generate_sidecar accepts it (the source lowercases the format before
comparing) and succeeds rather than returning failure. -/
theorem c8_counterexample :
    ("XMP".data) ≠ ("xmp".data) ∧
    (generate_sidecar [] [("cat".data)] ("XMP".data) false none false
      ⟨fun _ => true, true, false, true⟩).success = true := by
  exact ⟨by decide, rfl⟩

/-- Claim C8 as amended: for every format whose LOWERCASED form differs
from xmp, generate_sidecar rejects the request without invoking the tool
or touching the destination, and an uncancelled batch processed with such
a format yields an error count equal to the batch size. -/
theorem c8_amended_unsupported (bl tags : List Str) (ft : Str) (ow : Bool)
    (d : Option DestContent) (u : Bool) (e : Env)
    (h : pyLower ft ≠ ("xmp".data)) :
    generate_sidecar bl tags ft ow d u e = ⟨false, false, 0, d⟩ ∧
    ∀ (tls : List (List Str)) (p : Nat), tls.length < p →
      (runThread (tls.map
          (fun ts => (generate_sidecar bl ts ft ow d u e).success)) p).error
        = tls.length := by
  have hmain : ∀ tg : List Str,
      generate_sidecar bl tg ft ow d u e = ⟨false, false, 0, d⟩ := by
    intro tg
    unfold generate_sidecar genAfterDelete
    split
    · rfl
    · split
      · rfl
      · have hx : (pyLower ft == ("xmp".data)) = false := by
          simp [h]
        simp only [hx]
        simp
  refine ⟨hmain tags, ?_⟩
  intro tls p hp
  set oc := tls.map (fun ts => (generate_sidecar bl ts ft ow d u e).success)
    with hoc
  have hall : ∀ b ∈ oc, b = false := by
    intro b hb
    rcases List.mem_map.mp hb with ⟨ts, hts, rfl⟩
    rw [hmain ts]
  have hlen : oc.length = tls.length := by simp [hoc]
  have hproc : (runThread oc p).processed = 0 := by
    unfold runThread
    rw [(flushRest_counters _).1]
    exact runLoop_processed_false oc.length p oc ⟨0, 0, 0, 0, []⟩ hall
  have hsum : (runThread oc p).processed + (runThread oc p).error
      = min oc.length p := by
    unfold runThread
    obtain ⟨hp2, he2, hc2⟩ :=
      flushRest_counters (runLoop oc.length p oc ⟨0, 0, 0, 0, []⟩)
    rw [hp2, he2, runLoop_sum oc.length p oc ⟨0, 0, 0, 0, []⟩ rfl,
      runLoop_completed oc.length p oc ⟨0, 0, 0, 0, []⟩ (Nat.zero_le p)]
    simp
  rw [hproc, hlen] at hsum
  omega

/-- Witness for the amended C8. -/
theorem c8_amended_witness :
    generate_sidecar [] [("cat".data)] ("png".data) true
        (some DestContent.original) false
        ⟨fun _ => true, true, false, true⟩ =
      ⟨false, false, 0, some DestContent.original⟩ :=
  (c8_amended_unsupported [] [("cat".data)] ("png".data) true
    (some DestContent.original) false
    ⟨fun _ => true, true, false, true⟩ (by decide)).1

/-- Counterexample to claim C3: a failing invocation (tool fails after
the overwrite-delete step) loses the pre-existing sidecar at the true
destination, and with the Unicode workaround inactive a succeeding tool
writes directly at the true destination rather than through a final
atomic replace. -/
theorem c3_counterexample :
    (generate_sidecar [] [("cat".data)] ("xmp".data) true
        (some DestContent.original) false
        ⟨fun _ => true, false, false, true⟩).success = false ∧
    (generate_sidecar [] [("cat".data)] ("xmp".data) true
        (some DestContent.original) false
        ⟨fun _ => true, false, false, true⟩).dest = none ∧
    (generate_sidecar [] [("cat".data)] ("xmp".data) false none false
        ⟨fun _ => true, true, false, true⟩).dest =
      some (DestContent.written true) := by
  exact ⟨rfl, rfl, rfl⟩

/-- Claim C3 as amended: on failure the true destination is unchanged
provided the failing tool leaves no output file and the delete step did
not run (overwrite false or no pre-existing sidecar); otherwise a failing
run can lose a deleted pre-existing sidecar or receive partial tool
output, since the tool writes directly to the destination when the
Unicode workaround is inactive. -/
theorem c3_amended (bl tags : List Str) (ft : Str) (ow : Bool)
    (d : Option DestContent) (u : Bool) (e : Env)
    (h1 : e.tool_ok = false) (h2 : e.out_on_fail = false)
    (h3 : ow = false ∨ d = none) :
    (generate_sidecar bl tags ft ow d u e).success = false ∧
    (generate_sidecar bl tags ft ow d u e).dest = d := by
  have hnd : (ow && d.isSome) = false := by
    rcases h3 with h3 | h3 <;> simp [h3]
  unfold generate_sidecar genAfterDelete
  simp only [h1, h2, Bool.and_assoc, hnd, Bool.and_false, Bool.or_false]
  split_ifs <;> simp_all

/-- Witness for the amended C3. -/
theorem c3_amended_witness :
    (generate_sidecar [] [("cat".data)] ("xmp".data) false
        (some DestContent.original) false
        ⟨fun _ => true, false, false, true⟩).dest =
      some DestContent.original :=
  (c3_amended [] [("cat".data)] ("xmp".data) false
    (some DestContent.original) false
    ⟨fun _ => true, false, false, true⟩ rfl rfl (Or.inl rfl)).2

/-- Counterexample to claim C4: with overwrite false and an existing
sidecar, when the Unicode-safe temporary-path workaround is active and
the tool succeeds, the existing sidecar is deleted and replaced by the
final move, not left untouched. -/
theorem c4_counterexample :
    (generate_sidecar [] [("cat".data)] ("xmp".data) false
        (some DestContent.original) true
        ⟨fun _ => true, true, false, true⟩).dest =
      some (DestContent.written true) ∧
    (generate_sidecar [] [("cat".data)] ("xmp".data) false
        (some DestContent.original) true
        ⟨fun _ => true, true, false, true⟩).success = true := by
  exact ⟨rfl, rfl⟩

/-- Claim C4 as amended: with overwrite false the deletion step never
runs (zero delete attempts), and the existing sidecar is untouched
provided the Unicode workaround is inactive and the external tool writes
nothing; with the workaround active and tool output present the existing
sidecar is replaced. -/
theorem c4_amended (bl tags : List Str) (ft : Str)
    (d : DestContent) (u : Bool) (e : Env)
    (hu : u = false) (ht : e.tool_ok = false) (hp : e.out_on_fail = false) :
    (generate_sidecar bl tags ft false (some d) u e).delete_attempts = 0 ∧
    (generate_sidecar bl tags ft false (some d) u e).dest = some d := by
  unfold generate_sidecar genAfterDelete
  simp only [ht, hp, Bool.and_false, Bool.false_and, Bool.or_false]
  split_ifs <;> simp_all

/-! ## Claims about the batch thread -/

/-- Claim C1: processedCount plus errorCount equals the number of
completions consumed before cancellation (min of batch size and the
cancellation point), equals the batch size exactly when the run is not
cancelled, and an image with an empty tag list or with all tags
blacklisted is a failure outcome of generate_sidecar, hence counted as an
error, never skipped. -/
theorem c1_counter_invariant (outcomes : List Bool) (p : Nat) :
    (runThread outcomes p).processed + (runThread outcomes p).error
        = min outcomes.length p ∧
    (outcomes.length < p →
      (runThread outcomes p).processed + (runThread outcomes p).error
        = outcomes.length) ∧
    (∀ bl tags ft ow d u e, tags = [] ∨ filter_tags bl tags = [] →
      (generate_sidecar bl tags ft ow d u e).success = false) ∧
    (∀ n st, (stepRun n st false).error = st.error + 1 ∧
      (stepRun n st false).processed = st.processed) := by
  have base : (runThread outcomes p).processed
      + (runThread outcomes p).error = min outcomes.length p := by
    unfold runThread
    obtain ⟨hp2, he2, hc2⟩ :=
      flushRest_counters (runLoop outcomes.length p outcomes ⟨0, 0, 0, 0, []⟩)
    rw [hp2, he2]
    rw [runLoop_sum outcomes.length p outcomes ⟨0, 0, 0, 0, []⟩ rfl]
    rw [runLoop_completed outcomes.length p outcomes ⟨0, 0, 0, 0, []⟩
      (Nat.zero_le p)]
    simp
  refine ⟨base, ?_, ?_, ?_⟩
  · intro h
    rw [base]
    omega
  · intro bl tags ft ow d u e h
    rcases h with h | h
    · simp [generate_sidecar, h]
    · by_cases ht : tags = [] <;> simp [generate_sidecar, ht, h]
  · intro n st
    rw [stepRun_error, stepRun_processed]
    simp

/-- Witness for C1 at a concrete input. -/
theorem c1_witness :
    (runThread [true, false, true] 9).processed
        + (runThread [true, false, true] 9).error = 3 ∧
    (generate_sidecar [] [] ("xmp".data) true none false
      ⟨fun _ => true, true, false, true⟩).success = false :=
  ⟨(c1_counter_invariant [true, false, true] 9).2.1 (by decide),
   (c1_counter_invariant [true, false, true] 9).2.2.1 [] [] ("xmp".data) true
     none false ⟨fun _ => true, true, false, true⟩ (Or.inl rfl)⟩

set_option maxRecDepth 4000 in
/-- Claim C5: in an uncancelled run a progress event (paired with a
batched log event) is emitted exactly at the completion counts that are
multiples of 50 and at the final completion; a batch of 120 images
produces exactly the three flushes, at 50, 100 and 120, the final one
firing although 120 is not a multiple of 50. -/
theorem c5_batched_flush (outcomes : List Bool) (p : Nat)
    (hp : outcomes.length < p) :
    (∀ c, Event.progress c ∈ (runThread outcomes p).events ↔
        (1 ≤ c ∧ c ≤ outcomes.length ∧
          (c % 50 = 0 ∨ c = outcomes.length))) ∧
    (outcomes.length = 120 →
      (runThread outcomes p).events =
        [Event.logBatch 50, Event.progress 50, Event.logBatch 50,
         Event.progress 100, Event.logBatch 20, Event.progress 120]) := by
  have hnc : runLoop outcomes.length p outcomes ⟨0, 0, 0, 0, []⟩
      = runLoopNC outcomes.length outcomes ⟨0, 0, 0, 0, []⟩ :=
    runLoop_eq_nc outcomes.length p outcomes ⟨0, 0, 0, 0, []⟩ (by simp) hp
  constructor
  · intro c
    unfold runThread
    rw [flushRest_progress_mem, hnc, runLoopNC_progress_mem]
    simp only [List.not_mem_nil, false_or]
    omega
  · intro h120
    unfold runThread
    rw [hnc, h120]
    obtain ⟨oc, ol, oe⟩ := runLoopNC_obs 120 outcomes
      (List.replicate 120 true) ⟨0, 0, 0, 0, []⟩ ⟨0, 0, 0, 0, []⟩
      (by rw [h120]; simp) rfl rfl rfl
    have hcomp : runLoopNC 120 (List.replicate 120 true) ⟨0, 0, 0, 0, []⟩
        = ⟨120, 0, 120, 0,
            [Event.logBatch 50, Event.progress 50, Event.logBatch 50,
             Event.progress 100, Event.logBatch 20, Event.progress 120]⟩ := by
      decide
    have hl0 : (runLoopNC 120 outcomes ⟨0, 0, 0, 0, []⟩).log_pending = 0 := by
      rw [ol, hcomp]
    rw [flushRest_zero _ hl0, oe, hcomp]

/-- Witness for C5 at a concrete input. -/
theorem c5_witness :
    (runThread (List.replicate 120 true) 121).events =
      [Event.logBatch 50, Event.progress 50, Event.logBatch 50,
       Event.progress 100, Event.logBatch 20, Event.progress 120] :=
  (c5_batched_flush (List.replicate 120 true) 121 (by decide)).2 (by decide)

/-- Witness for the amended C4. -/
theorem c4_amended_witness :
    (generate_sidecar [] [("cat".data)] ("xmp".data) false
        (some DestContent.original) false
        ⟨fun _ => false, false, false, true⟩).delete_attempts = 0 :=
  (c4_amended [] [("cat".data)] ("xmp".data) DestContent.original false
    ⟨fun _ => false, false, false, true⟩ rfl rfl rfl).1

end TagGui
